import Mathlib

/-!
Verification of the core helper layer of a Python client for a CRM-style
HTTP API (`client.py`): the offset-based pagination engine
(`paginate_records` / `paginate_entries`), the batch-create engine
(`batch_create_records`), and the error classifier (`_handle_error`).

The embedding is shallow:

* payload dictionaries become insertion-ordered association lists with
  Python `dict` semantics (`d[k] = v` replaces the first binding in place,
  otherwise appends; `setdefault` inserts only when the key is absent);
* the HTTP query call becomes an explicit function
  `fetch : Dict -> Option (List item)`, where `none` models a response with
  no data field and `some l` models a response whose data field is `l`;
* the generator loop becomes fuel-indexed recursion returning
  `Option (yielded items, final payload, trace of fetched payloads)`;
  `none` marks fuel exhaustion (the source loop not having terminated
  within the given number of iterations).  The trace records, in order,
  the exact payload dictionary passed to each fetch call, so the number
  of fetch calls is the trace's length;
* raising becomes returning a `PyError` value (the classifier always
  raises, so its embedding is a total function into `PyError`);
* the batch engine's create call becomes `create : item -> Except String
  response`, the `String` being `str(e)` of the raised exception.
-/

/-- JSON-like scalar values stored in payload dictionaries. -/
inductive JVal where
  | num : Int → JVal
  | str : String → JVal
  deriving DecidableEq, Repr

/-- Python `str()` of a scalar value. -/
def pyStr : JVal → String
  | JVal.num n => toString n
  | JVal.str s => s

/-- First binding of `key` in an insertion-ordered entry list. -/
def entriesLookup : List (String × JVal) → String → Option JVal
  | [], _ => none
  | (k, v) :: rest, key => if k = key then some v else entriesLookup rest key

/-- Python `d[key] = val` on an entry list: replace the first binding in
place, otherwise append at the end. -/
def entriesSet : List (String × JVal) → String → JVal → List (String × JVal)
  | [], key, val => [(key, val)]
  | (k, v) :: rest, key, val =>
    if k = key then (k, val) :: rest else (k, v) :: entriesSet rest key val

/-- A Python dictionary with `String` keys and scalar values, modelled as an
insertion-ordered association list. -/
structure Dict where
  entries : List (String × JVal)
  deriving DecidableEq, Repr

/-- Python `d.get(key)` / `d.get(key, default=None)`. -/
def Dict.get? (d : Dict) (key : String) : Option JVal :=
  entriesLookup d.entries key

/-- Python `d[key] = val`. -/
def Dict.set (d : Dict) (key : String) (val : JVal) : Dict :=
  ⟨entriesSet d.entries key val⟩

/-- Python `d.setdefault(key, val)`: insert only when the key is absent. -/
def Dict.setdefault (d : Dict) (key : String) (val : JVal) : Dict :=
  match d.get? key with
  | some _ => d
  | none => d.set key val

/-- Reading of `payload.get("offset", 0)` as an integer, as done by the
pagination engines (payloads under consideration carry numeric offsets). -/
def Dict.get_offset (d : Dict) : Int :=
  match d.get? "offset" with
  | some (JVal.num n) => n
  | _ => 0

/-- The `limit` field of a payload as an integer (the field the query
operation reads as the requested page length). -/
def Dict.get_limit (d : Dict) : Int :=
  match d.get? "limit" with
  | some (JVal.num n) => n
  | _ => 0

/-- The Python exceptions raised by `BaseClient._handle_error`, carrying
their message strings. -/
inductive PyError where
  | valueError : String → PyError
  | permissionError : String → PyError
  | fileNotFoundError : String → PyError
  | runtimeError : String → PyError
  | exception : String → PyError
  deriving DecidableEq, Repr

/-- The message derivation of `_handle_error`: `body` is `some d` when the
response body parses as JSON dictionary `d` and `none` when parsing fails;
`text` is the raw body text.  `error_data.get("message", response.text)`,
with the fetched value stringified by the f-string interpolation. -/
def error_message (body : Option Dict) (text : String) : String :=
  match body with
  | none => text
  | some d =>
    match d.get? "message" with
    | some v => pyStr v
    | none => text

/-- Embedding of `BaseClient._handle_error`: classify an HTTP status code
into a raised exception.  Every branch raises, so the embedding is a total
function into `PyError`. -/
def handle_error (status : Int) (body : Option Dict) (text : String) : PyError :=
  let m := error_message body text
  if status = 400 then PyError.valueError ("Bad Request (400): " ++ m)
  else if status = 401 then
    PyError.permissionError ("Unauthorized (401): Invalid API key or permissions - " ++ m)
  else if status = 403 then
    PyError.permissionError ("Forbidden (403): Access denied - " ++ m)
  else if status = 404 then
    PyError.fileNotFoundError ("Not Found (404): Resource not found - " ++ m)
  else if status = 409 then
    PyError.valueError ("Conflict (409): Resource conflict - " ++ m)
  else if status = 422 then
    PyError.valueError ("Unprocessable Entity (422): Validation error - " ++ m)
  else if status = 429 then
    PyError.runtimeError ("Rate Limited (429): Too many requests - " ++ m)
  else if 500 ≤ status then
    PyError.runtimeError ("Server Error (" ++ toString status ++ "): " ++ m)
  else
    PyError.exception ("Request failed (" ++ toString status ++ "): " ++ m)

/-- The `while True` loop of `Client.paginate_records`, fuel-indexed.
Each iteration writes `payload["offset"] = offset`, fetches, and then
follows the source's three exits ("data" not in the response, empty page,
short page) or recurses with `offset + page_size`.  The result is
`some (yielded items, final payload, payloads passed to fetch in order)`;
`none` means the loop did not terminate within `fuel` iterations. -/
def paginate_loop {α : Type} (fetch : Dict → Option (List α)) (page_size : Int) :
    Nat → Dict → Int → Option (List α × Dict × List Dict)
  | 0, _, _ => none
  | fuel + 1, payload, offset =>
    let payload2 := payload.set "offset" (JVal.num offset)
    match fetch payload2 with
    | none => some ([], payload2, [payload2])
    | some records =>
      if records.isEmpty then some ([], payload2, [payload2])
      else if (records.length : Int) < page_size then some (records, payload2, [payload2])
      else
        match paginate_loop fetch page_size fuel payload2 (offset + page_size) with
        | none => none
        | some (rest, pfin, tr) => some (records ++ rest, pfin, payload2 :: tr)

/-- Embedding of `Client.paginate_records`:
`payload.setdefault("limit", page_size)`, then
`offset = payload.get("offset", 0)`, then the fetch loop.  `fetch` stands
for `self.list_records(object_id, .)`. -/
def paginate_records {α : Type} (fetch : Dict → Option (List α)) (payload : Dict)
    (page_size : Int) (fuel : Nat) : Option (List α × Dict × List Dict) :=
  let payload2 := payload.setdefault "limit" (JVal.num page_size)
  paginate_loop fetch page_size fuel payload2 payload2.get_offset

/-- The `while True` loop of `Client.paginate_entries` (textually the same
code as the records loop, duplicated as in the source). -/
def paginate_entries_loop {α : Type} (fetch : Dict → Option (List α)) (page_size : Int) :
    Nat → Dict → Int → Option (List α × Dict × List Dict)
  | 0, _, _ => none
  | fuel + 1, payload, offset =>
    let payload2 := payload.set "offset" (JVal.num offset)
    match fetch payload2 with
    | none => some ([], payload2, [payload2])
    | some entries =>
      if entries.isEmpty then some ([], payload2, [payload2])
      else if (entries.length : Int) < page_size then some (entries, payload2, [payload2])
      else
        match paginate_entries_loop fetch page_size fuel payload2 (offset + page_size) with
        | none => none
        | some (rest, pfin, tr) => some (entries ++ rest, pfin, payload2 :: tr)

/-- Embedding of `Client.paginate_entries`; `fetch` stands for
`self.list_entries(list_id, .)`. -/
def paginate_entries {α : Type} (fetch : Dict → Option (List α)) (payload : Dict)
    (page_size : Int) (fuel : Nat) : Option (List α × Dict × List Dict) :=
  let payload2 := payload.setdefault "limit" (JVal.num page_size)
  paginate_entries_loop fetch page_size fuel payload2 payload2.get_offset

/-- A consistent server over a fixed underlying data set: a query with
payload `d` returns the slice of `items` starting at the payload offset
field, of length the payload limit field (the offset-based list API the
engines are written against). -/
def stable_server {α : Type} (items : List α) (d : Dict) : Option (List α) :=
  some ((items.drop d.get_offset.toNat).take d.get_limit.toNat)

/-- One entry of the list returned by `batch_create_records`: either the
response appended on success, or — when the create call raised — the dict
with an error key holding `str(e)` and a payload key holding the offending
`record_payload`. -/
inductive BatchResult (α β : Type) where
  | success : β → BatchResult α β
  | error : String → α → BatchResult α β
  deriving DecidableEq, Repr

/-- The per-payload body of the batch loop: run the create call, catching
any raised error into an error entry carrying `str(e)` and the payload. -/
def applyCreate {α β : Type} (create : α → Except String β) (p : α) : BatchResult α β :=
  match create p with
  | Except.ok r => BatchResult.success r
  | Except.error e => BatchResult.error e p

/-- Length of the Python `range(start, stop, step)` sequence for a nonzero
step (CPython's length formula, floor division on nonnegative operands). -/
def pyRangeLen (start stop step : Int) : Nat :=
  if 0 < step then
    (if start < stop then ((stop - start - 1) / step + 1).toNat else 0)
  else
    (if stop < start then ((start - stop - 1) / (-step) + 1).toNat else 0)

/-- Python `range(start, stop, step)`: raises `ValueError` on a zero step,
otherwise the arithmetic sequence of `pyRangeLen` elements. -/
def pyRange (start stop step : Int) : Except String (List Int) :=
  if step = 0 then Except.error "range() arg 3 must not be zero"
  else Except.ok ((List.range (pyRangeLen start stop step)).map
    (fun k : Nat => start + step * (k : Int)))

/-- Python slice `xs[i:j]` for `0 ≤ i ≤ j` (the only shape the batch engine
uses: `records[i:i + batch_size]` with `i` drawn from `range(0, len(records),
batch_size)` and a positive step). -/
def pySlice {α : Type} (xs : List α) (i j : Int) : List α :=
  (xs.drop i.toNat).take (j - i).toNat

/-- Embedding of `Client.batch_create_records`: chunk indices with
`range(0, len(records), batch_size)`, slice `records[i:i + batch_size]`,
and run every payload of every slice through the create call, catching
raised errors into error entries.  The outer `Except` carries the
`ValueError` that `range` itself raises on a zero step (nothing else in
the engine raises). -/
def batch_create_records {α β : Type} (create : α → Except String β)
    (records : List α) (batch_size : Int) : Except String (List (BatchResult α β)) :=
  match pyRange 0 records.length batch_size with
  | Except.error e => Except.error e
  | Except.ok idxs =>
    Except.ok (idxs.flatMap (fun i =>
      (pySlice records i (i + batch_size)).map (applyCreate create)))

/-- The sequence of payloads handed to the create call by
`batch_create_records`, in call order (the concatenation of the slices). -/
def batch_call_sequence {α : Type} (records : List α) (batch_size : Int) :
    Except String (List α) :=
  match pyRange 0 records.length batch_size with
  | Except.error e => Except.error e
  | Except.ok idxs => Except.ok (idxs.flatMap (fun i => pySlice records i (i + batch_size)))

/-! ## Dictionary lemmas -/

theorem entriesLookup_set_self (l : List (String × JVal)) (key : String) (val : JVal) :
    entriesLookup (entriesSet l key val) key = some val := by
  induction l with
  | nil => simp [entriesSet, entriesLookup]
  | cons hd tl ih =>
    obtain ⟨k, v⟩ := hd
    by_cases h : k = key
    · simp [entriesSet, entriesLookup, h]
    · simp [entriesSet, entriesLookup, h, ih]

theorem entriesLookup_set_ne (l : List (String × JVal)) (key k2 : String) (val : JVal)
    (h : k2 ≠ key) : entriesLookup (entriesSet l key val) k2 = entriesLookup l k2 := by
  induction l with
  | nil => simp [entriesSet, entriesLookup, Ne.symm h]
  | cons hd tl ih =>
    obtain ⟨k, v⟩ := hd
    by_cases hk : k = key
    · subst hk
      simp [entriesSet, entriesLookup, Ne.symm h]
    · simp [entriesSet, entriesLookup, hk, ih]

theorem Dict.get?_set_self (d : Dict) (key : String) (val : JVal) :
    (d.set key val).get? key = some val :=
  entriesLookup_set_self d.entries key val

theorem Dict.get?_set_ne (d : Dict) (key k2 : String) (val : JVal) (h : k2 ≠ key) :
    (d.set key val).get? k2 = d.get? k2 :=
  entriesLookup_set_ne d.entries key k2 val h

theorem Dict.get_limit_set_offset (d : Dict) (v : JVal) :
    (d.set "offset" v).get_limit = d.get_limit := by
  unfold Dict.get_limit
  rw [Dict.get?_set_ne]
  decide

theorem Dict.get_offset_set_offset (d : Dict) (n : Int) :
    (d.set "offset" (JVal.num n)).get_offset = n := by
  unfold Dict.get_offset
  rw [Dict.get?_set_self]

/-! ## Batch chunking lemmas -/

theorem pyRangeLen_pos_step (L b : Nat) (hb : 0 < b) :
    pyRangeLen 0 (L : Int) (b : Int) = if L = 0 then 0 else (L - 1) / b + 1 := by
  unfold pyRangeLen
  rw [if_pos (by exact_mod_cast hb)]
  by_cases hL : L = 0
  · subst hL
    simp
  · rw [if_pos (by exact_mod_cast Nat.pos_of_ne_zero hL), if_neg hL]
    have h1 : (L : Int) - 0 - 1 = ((L - 1 : Nat) : Int) := by omega
    have h2 : ((L - 1 : Nat) : Int) / ((b : Nat) : Int) = (((L - 1) / b : Nat) : Int) :=
      (Int.ofNat_ediv _ _).symm
    have h3 : ((((L - 1) / b : Nat) : Int) + 1) = (((L - 1) / b + 1 : Nat) : Int) := by
      push_cast
      ring
    rw [h1, h2, h3, Int.toNat_natCast]

/-- Concatenating the slices `records[b*k : b*k + b]` over the chunk count
recovers the whole list. -/
theorem range_chunks_join {α : Type} (b : Nat) (hb : 0 < b) :
    ∀ (L : Nat) (records : List α), records.length = L →
      (List.range (if L = 0 then 0 else (L - 1) / b + 1)).flatMap
        (fun k => (records.drop (b * k)).take b) = records := by
  intro L
  induction L using Nat.strong_induction_on with
  | _ L ih =>
    intro records hlen
    by_cases hL : L = 0
    · subst hL
      rw [List.length_eq_zero.mp hlen]
      simp
    · rw [if_neg hL]
      rw [List.range_succ_eq_map, List.flatMap_cons, List.flatMap_map]
      have hstep : (fun k : Nat => (records.drop (b * k.succ)).take b)
          = fun k => ((records.drop b).drop (b * k)).take b := by
        funext k
        show (records.drop (b * (k + 1))).take b = ((records.drop b).drop (b * k)).take b
        rw [List.drop_drop]
        ring_nf
      have hcount : (L - 1) / b = if (records.drop b).length = 0 then 0
          else ((records.drop b).length - 1) / b + 1 := by
        rw [List.length_drop, hlen]
        by_cases hLb : L ≤ b
        · rw [if_pos (by omega)]
          exact Nat.div_eq_of_lt (by omega)
        · rw [if_neg (by omega)]
          have h2 : b ≤ L - 1 := by omega
          rw [Nat.div_eq_sub_div hb h2]
          congr 2
          omega
      rw [hstep, Nat.mul_zero, List.drop_zero, hcount,
        ih (records.drop b).length (by rw [List.length_drop]; omega) (records.drop b) rfl,
        List.take_append_drop]

/-- For a positive batch size the engine never raises and maps the caught
create call over the whole input, in order. -/
theorem batch_create_records_pos {α β : Type} (create : α → Except String β)
    (records : List α) (bs : Int) (hbs : 0 < bs) :
    batch_create_records create records bs
      = Except.ok (records.map (applyCreate create)) := by
  obtain ⟨b, rfl⟩ : ∃ b : Nat, (b : Int) = bs := ⟨bs.toNat, by omega⟩
  have hb : 0 < b := by exact_mod_cast hbs
  have hne : ((b : Nat) : Int) ≠ 0 := by omega
  unfold batch_create_records pyRange
  rw [if_neg hne, pyRangeLen_pos_step records.length b hb]
  show Except.ok (((List.range (if records.length = 0 then 0
        else (records.length - 1) / b + 1)).map
          (fun k : Nat => (0 : Int) + (b : Int) * (k : Int))).flatMap
        (fun i => (pySlice records i (i + (b : Int))).map (applyCreate create)))
    = Except.ok (records.map (applyCreate create))
  rw [List.flatMap_map]
  have hfg : (fun k : Nat => (pySlice records ((0 : Int) + (b : Int) * (k : Int))
        ((0 : Int) + (b : Int) * (k : Int) + (b : Int))).map (applyCreate create))
      = fun k : Nat => ((records.drop (b * k)).take b).map (applyCreate create) := by
    funext k
    unfold pySlice
    rw [add_sub_cancel_left, Int.toNat_natCast, zero_add, ← Nat.cast_mul, Int.toNat_natCast]
  rw [hfg, ← List.map_flatMap, range_chunks_join b hb records.length records rfl]

/-- For a positive batch size the create call is handed every input
payload exactly once, in input order. -/
theorem batch_call_sequence_pos {α : Type} (records : List α) (bs : Int) (hbs : 0 < bs) :
    batch_call_sequence records bs = Except.ok records := by
  obtain ⟨b, rfl⟩ : ∃ b : Nat, (b : Int) = bs := ⟨bs.toNat, by omega⟩
  have hb : 0 < b := by exact_mod_cast hbs
  have hne : ((b : Nat) : Int) ≠ 0 := by omega
  unfold batch_call_sequence pyRange
  rw [if_neg hne, pyRangeLen_pos_step records.length b hb]
  show Except.ok (((List.range (if records.length = 0 then 0
        else (records.length - 1) / b + 1)).map
          (fun k : Nat => (0 : Int) + (b : Int) * (k : Int))).flatMap
        (fun i => pySlice records i (i + (b : Int))))
    = Except.ok records
  rw [List.flatMap_map]
  have hfg : (fun k : Nat => pySlice records ((0 : Int) + (b : Int) * (k : Int))
        ((0 : Int) + (b : Int) * (k : Int) + (b : Int)))
      = fun k : Nat => (records.drop (b * k)).take b := by
    funext k
    unfold pySlice
    rw [add_sub_cancel_left, Int.toNat_natCast, zero_add, ← Nat.cast_mul, Int.toNat_natCast]
  rw [hfg, range_chunks_join b hb records.length records rfl]

theorem Dict.get?_setdefault_ne (d : Dict) (key k2 : String) (val : JVal) (h : k2 ≠ key) :
    (d.setdefault key val).get? k2 = d.get? k2 := by
  unfold Dict.setdefault
  cases d.get? key with
  | none => exact Dict.get?_set_ne d key k2 val h
  | some v => rfl

theorem Dict.get?_setdefault_self (d : Dict) (key : String) (val : JVal) :
    (d.setdefault key val).get? key = some ((d.get? key).getD val) := by
  unfold Dict.setdefault
  cases h : d.get? key with
  | none => rw [Dict.get?_set_self]; rfl
  | some v => rw [h]; rfl

/-! ## Pagination loop lemmas -/

/-- The loop only ever writes the `offset` key: the final payload and every
payload passed to a fetch call agree with the loop's input payload on all
other keys. -/
theorem paginate_loop_frame {α : Type} (fetch : Dict → Option (List α)) (ps : Int) :
    ∀ (fuel : Nat) (payload : Dict) (off : Int) (its : List α) (p : Dict) (tr : List Dict),
      paginate_loop fetch ps fuel payload off = some (its, p, tr) →
      (∀ k, k ≠ "offset" → p.get? k = payload.get? k) ∧
      ∀ d ∈ tr, ∀ k, k ≠ "offset" → d.get? k = payload.get? k := by
  intro fuel
  induction fuel with
  | zero =>
    intro payload off its p tr h
    simp [paginate_loop] at h
  | succ n ih =>
    intro payload off its p tr h
    simp only [paginate_loop] at h
    split at h
    · rw [Option.some.injEq, Prod.mk.injEq, Prod.mk.injEq] at h
      obtain ⟨-, rfl, rfl⟩ := h
      refine ⟨fun k hk => Dict.get?_set_ne _ _ _ _ hk, ?_⟩
      intro d hd k hk
      rw [List.mem_singleton] at hd
      subst hd
      exact Dict.get?_set_ne _ _ _ _ hk
    · split at h
      · rw [Option.some.injEq, Prod.mk.injEq, Prod.mk.injEq] at h
        obtain ⟨-, rfl, rfl⟩ := h
        refine ⟨fun k hk => Dict.get?_set_ne _ _ _ _ hk, ?_⟩
        intro d hd k hk
        rw [List.mem_singleton] at hd
        subst hd
        exact Dict.get?_set_ne _ _ _ _ hk
      · split at h
        · rw [Option.some.injEq, Prod.mk.injEq, Prod.mk.injEq] at h
          obtain ⟨-, rfl, rfl⟩ := h
          refine ⟨fun k hk => Dict.get?_set_ne _ _ _ _ hk, ?_⟩
          intro d hd k hk
          rw [List.mem_singleton] at hd
          subst hd
          exact Dict.get?_set_ne _ _ _ _ hk
        · split at h
          · exact absurd h (by simp)
          · rename_i rest pfin tr0 heq
            rw [Option.some.injEq, Prod.mk.injEq, Prod.mk.injEq] at h
            obtain ⟨-, rfl, rfl⟩ := h
            obtain ⟨ih1, ih2⟩ := ih _ _ _ _ _ heq
            refine ⟨?_, ?_⟩
            · intro k hk
              rw [ih1 k hk]
              exact Dict.get?_set_ne _ _ _ _ hk
            · intro d hd k hk
              rw [List.mem_cons] at hd
              rcases hd with rfl | hd
              · exact Dict.get?_set_ne _ _ _ _ hk
              · rw [ih2 d hd k hk]
                exact Dict.get?_set_ne _ _ _ _ hk

/-- The entries loop is the records loop (the source duplicates the code
verbatim). -/
theorem paginate_entries_loop_eq {α : Type} (fetch : Dict → Option (List α)) (ps : Int) :
    ∀ (fuel : Nat) (payload : Dict) (off : Int),
      paginate_entries_loop fetch ps fuel payload off =
        paginate_loop fetch ps fuel payload off := by
  intro fuel
  induction fuel with
  | zero => intro payload off; rfl
  | succ n ih =>
    intro payload off
    simp only [paginate_entries_loop, paginate_loop, ih]

theorem paginate_entries_eq {α : Type} (fetch : Dict → Option (List α)) (payload : Dict)
    (ps : Int) (fuel : Nat) :
    paginate_entries fetch payload ps fuel = paginate_records fetch payload ps fuel := by
  simp only [paginate_entries, paginate_records, paginate_entries_loop_eq]

/-- Against a consistent server over `items`, the loop started at offset
`off` with enough fuel yields exactly `items.drop off` and performs
`(items.length - off) / page_size + 1` fetch calls. -/
theorem stable_loop_complete {α : Type} (items : List α) (ps : Int) (hps : 0 < ps) :
    ∀ (fuel : Nat) (payload : Dict) (off : Nat),
      payload.get_limit = ps →
      (items.length - off) / ps.toNat + 1 ≤ fuel →
      ∃ p tr, paginate_loop (stable_server items) ps fuel payload (off : Int)
          = some (items.drop off, p, tr) ∧
        tr.length = (items.length - off) / ps.toNat + 1 := by
  intro fuel
  induction fuel with
  | zero =>
    intro payload off hlim hfuel
    exact (Nat.not_succ_le_zero _ hfuel).elim
  | succ n ih =>
    intro payload off hlim hfuel
    have hb : 0 < ps.toNat := by omega
    have hcast : (ps.toNat : Int) = ps := by omega
    have hlim2 : (payload.set "offset" (JVal.num (off : Int))).get_limit = ps := by
      rw [Dict.get_limit_set_offset, hlim]
    have hfetch : stable_server items (payload.set "offset" (JVal.num (off : Int)))
        = some ((items.drop off).take ps.toNat) := by
      unfold stable_server
      rw [Dict.get_offset_set_offset, hlim2, Int.toNat_natCast]
    simp only [paginate_loop, hfetch]
    by_cases h1 : items.length ≤ off
    · have hdrop : items.drop off = [] := List.drop_eq_nil_of_le h1
      have hsub : items.length - off = 0 := by omega
      rw [hdrop]
      refine ⟨payload.set "offset" (JVal.num (off : Int)),
        [payload.set "offset" (JVal.num (off : Int))], ?_, ?_⟩
      · simp
      · simp [hsub]
    · push_neg at h1
      have hlenp : ((items.drop off).take ps.toNat).length
          = min ps.toNat (items.length - off) := by
        simp [List.length_take, List.length_drop]
      have hnonempty : ((items.drop off).take ps.toNat).isEmpty = false := by
        rw [List.isEmpty_eq_false_iff_exists_mem]
        have : 0 < ((items.drop off).take ps.toNat).length := by omega
        exact List.exists_mem_of_length_pos this
      rw [hnonempty]
      simp only [Bool.false_eq_true, if_false]
      by_cases h2 : items.length - off < ps.toNat
      · have htake : (items.drop off).take ps.toNat = items.drop off :=
          List.take_of_length_le (by simp [List.length_drop]; omega)
        have hshort : (((items.drop off).take ps.toNat).length : Int) < ps := by
          omega
        rw [if_pos hshort, htake]
        refine ⟨_, _, rfl, ?_⟩
        simp [Nat.div_eq_of_lt h2]
      · push_neg at h2
        have hfull : ¬((((items.drop off).take ps.toNat).length : Int) < ps) := by
          omega
        rw [if_neg hfull]
        have hoffcast : (off : Int) + ps = ((off + ps.toNat : Nat) : Int) := by
          push_cast
          omega
        have hdiv : (items.length - off) / ps.toNat
            = (items.length - off - ps.toNat) / ps.toNat + 1 :=
          Nat.div_eq_sub_div hb h2
        have hsub2 : items.length - (off + ps.toNat) = items.length - off - ps.toNat := by
          omega
        have hbound : (items.length - (off + ps.toNat)) / ps.toNat + 1 ≤ n := by
          rw [hsub2]
          rw [hdiv] at hfuel
          omega
        obtain ⟨p, tr, hrec, htr⟩ := ih (payload.set "offset" (JVal.num (off : Int)))
          (off + ps.toNat) hlim2 hbound
        rw [hoffcast, hrec]
        refine ⟨p, payload.set "offset" (JVal.num (off : Int)) :: tr, ?_, ?_⟩
        · have hjoin : (items.drop off).take ps.toNat ++ items.drop (off + ps.toNat)
              = items.drop off := by
            rw [← List.drop_drop ps.toNat off items, List.take_append_drop]
          show some ((items.drop off).take ps.toNat ++ items.drop (off + ps.toNat),
              p, payload.set "offset" (JVal.num (off : Int)) :: tr)
            = some (items.drop off, p, payload.set "offset" (JVal.num (off : Int)) :: tr)
          rw [hjoin]
        · simp only [List.length_cons, htr, hsub2]
          omega

/-! ## Claim theorems -/

/-- C2: for every page fetched by either pagination loop, if the page's
item count is strictly less than the requested page size, the generator
yields that page's items and terminates: the result from this iteration
onward is exactly that page, the fetch trace from this iteration is the
single call that returned it, and no further fetch is issued. -/
theorem pagination_short_page_terminates {α : Type} (fetch : Dict → Option (List α))
    (ps : Int) (payload : Dict) (off : Int) (fuel : Nat) (page : List α)
    (hf : fetch (payload.set "offset" (JVal.num off)) = some page)
    (hlt : (page.length : Int) < ps) :
    paginate_loop fetch ps (fuel + 1) payload off
        = some (page, payload.set "offset" (JVal.num off),
            [payload.set "offset" (JVal.num off)]) ∧
    paginate_entries_loop fetch ps (fuel + 1) payload off
        = some (page, payload.set "offset" (JVal.num off),
            [payload.set "offset" (JVal.num off)]) := by
  have h : paginate_loop fetch ps (fuel + 1) payload off
      = some (page, payload.set "offset" (JVal.num off),
          [payload.set "offset" (JVal.num off)]) := by
    by_cases hE : page.isEmpty
    · have hnil : page = [] := List.isEmpty_iff.mp hE
      subst hnil
      simp only [paginate_loop, hf, List.isEmpty_nil, if_true]
    · simp only [paginate_loop, hf]
      rw [if_neg hE, if_pos hlt]
  exact ⟨h, by rw [paginate_entries_loop_eq]; exact h⟩

/-- C2 witness: a one-item page against a requested page size of 5. -/
theorem pagination_short_page_terminates_witness :
    paginate_loop (fun _ => some [7]) 5 1 ⟨[]⟩ 0
        = some ([7], Dict.set ⟨[]⟩ "offset" (JVal.num 0),
            [Dict.set ⟨[]⟩ "offset" (JVal.num 0)]) ∧
    paginate_entries_loop (fun _ => some [7]) 5 1 ⟨[]⟩ 0
        = some ([7], Dict.set ⟨[]⟩ "offset" (JVal.num 0),
            [Dict.set ⟨[]⟩ "offset" (JVal.num 0)]) :=
  pagination_short_page_terminates (fun _ => some [7]) 5 ⟨[]⟩ 0 0 [7] rfl (by decide)

/-- C7: a fetched response with no data field (`none`) or an empty data
list silently terminates either pagination loop with zero further items,
zero further fetch calls, and no error. -/
theorem pagination_empty_terminates {α : Type} (fetch : Dict → Option (List α))
    (ps : Int) (payload : Dict) (off : Int) (fuel : Nat)
    (h : fetch (payload.set "offset" (JVal.num off)) = none ∨
         fetch (payload.set "offset" (JVal.num off)) = some []) :
    paginate_loop fetch ps (fuel + 1) payload off
        = some ([], payload.set "offset" (JVal.num off),
            [payload.set "offset" (JVal.num off)]) ∧
    paginate_entries_loop fetch ps (fuel + 1) payload off
        = some ([], payload.set "offset" (JVal.num off),
            [payload.set "offset" (JVal.num off)]) := by
  have hh : paginate_loop fetch ps (fuel + 1) payload off
      = some ([], payload.set "offset" (JVal.num off),
          [payload.set "offset" (JVal.num off)]) := by
    rcases h with h | h
    · simp only [paginate_loop, h]
    · simp only [paginate_loop, h, List.isEmpty_nil, if_true]
  exact ⟨hh, by rw [paginate_entries_loop_eq]; exact hh⟩

/-- C7 witness: a server response with no data field. -/
theorem pagination_empty_terminates_witness :
    paginate_loop (fun _ => (none : Option (List Nat))) 5 1 ⟨[]⟩ 0
        = some ([], Dict.set ⟨[]⟩ "offset" (JVal.num 0),
            [Dict.set ⟨[]⟩ "offset" (JVal.num 0)]) ∧
    paginate_entries_loop (fun _ => (none : Option (List Nat))) 5 1 ⟨[]⟩ 0
        = some ([], Dict.set ⟨[]⟩ "offset" (JVal.num 0),
            [Dict.set ⟨[]⟩ "offset" (JVal.num 0)]) :=
  pagination_empty_terminates (fun _ => (none : Option (List Nat))) 5 ⟨[]⟩ 0 0 (Or.inl rfl)

/-- C3: against a consistent server over `items` that serves pages of the
requested limit, consuming the whole generator (no caller-preset
pagination fields, enough fuel) yields exactly `items`, in server order,
using `items.length / page_size + 1` fetch calls. -/
theorem pagination_completeness {α : Type} (items : List α) (ps : Int) (hps : 0 < ps)
    (fuel : Nat) (hfuel : items.length / ps.toNat + 1 ≤ fuel) :
    ∃ p tr, paginate_records (stable_server items) ⟨[]⟩ ps fuel
        = some (items, p, tr) ∧ tr.length = items.length / ps.toNat + 1 := by
  have hsd : (Dict.setdefault ⟨[]⟩ "limit" (JVal.num ps)) = ⟨[("limit", JVal.num ps)]⟩ := rfl
  have hlim : (⟨[("limit", JVal.num ps)]⟩ : Dict).get_limit = ps := rfl
  have hoff : (⟨[("limit", JVal.num ps)]⟩ : Dict).get_offset = ((0 : Nat) : Int) := rfl
  obtain ⟨p, tr, hloop, htr⟩ := stable_loop_complete items ps hps fuel
    ⟨[("limit", JVal.num ps)]⟩ 0 hlim (by simpa using hfuel)
  refine ⟨p, tr, ?_, by simpa using htr⟩
  unfold paginate_records
  rw [hsd]
  show paginate_loop (stable_server items) ps fuel ⟨[("limit", JVal.num ps)]⟩
      (Dict.get_offset ⟨[("limit", JVal.num ps)]⟩) = some (items, p, tr)
  rw [hoff, hloop]
  simp

/-- C3 witness: 7 underlying records, page size 5: the generator yields all
7 items in order over exactly 2 fetch calls (a page of 5 then a page of 2). -/
theorem pagination_completeness_witness :
    ∃ p tr, paginate_records (stable_server [0, 1, 2, 3, 4, 5, 6]) ⟨[]⟩ 5 3
        = some ([0, 1, 2, 3, 4, 5, 6], p, tr) ∧ tr.length = 2 :=
  pagination_completeness [0, 1, 2, 3, 4, 5, 6] 5 (by decide) 3 (by decide)

/-- C1 counterexample: the claim says the engine sets the payload's limit
to page_size at the start, overwriting a caller-defined limit, and then
advances offset by that limit.  Against a consistent 4-item server with a
caller payload presetting limit 3 and page_size 2, the engine keeps
limit 3 (never overwriting it with 2) and advances offset by page_size 2
(offsets 0, 2, 4), so item 2 is yielded twice — under the claimed
behavior the run would use limit 2 throughout and yield each item once. -/
theorem paginate_limit_preset_cex :
    paginate_records (stable_server [0, 1, 2, 3]) ⟨[("limit", JVal.num 3)]⟩ 2 5
        = some ([0, 1, 2, 2, 3],
            ⟨[("limit", JVal.num 3), ("offset", JVal.num 4)]⟩,
            [⟨[("limit", JVal.num 3), ("offset", JVal.num 0)]⟩,
             ⟨[("limit", JVal.num 3), ("offset", JVal.num 2)]⟩,
             ⟨[("limit", JVal.num 3), ("offset", JVal.num 4)]⟩]) ∧
      JVal.num 3 ≠ JVal.num 2 :=
  ⟨rfl, by decide⟩

/-- C1 (amended): the engine sets the payload's limit to page_size only
when the payload does not already define a limit (an existing limit is
kept, via setdefault), and after each page that is neither empty nor
short it advances offset by page_size — not by the payload's limit —
before the next fetch. -/
theorem paginate_limit_setdefault_offset_advance {α : Type}
    (fetch : Dict → Option (List α)) (payload : Dict) (ps : Int) (fuel : Nat) :
    (∀ its p tr, paginate_records fetch payload ps fuel = some (its, p, tr) →
      p.get? "limit" = some ((payload.get? "limit").getD (JVal.num ps))) ∧
    (∀ (fuel2 : Nat) (q : Dict) (off : Int) (page : List α),
      fetch (q.set "offset" (JVal.num off)) = some page →
      page.isEmpty = false →
      ¬((page.length : Int) < ps) →
      paginate_loop fetch ps (fuel2 + 1) q off
        = (paginate_loop fetch ps fuel2 (q.set "offset" (JVal.num off)) (off + ps)).map
            (fun r => (page ++ r.1, r.2.1, q.set "offset" (JVal.num off) :: r.2.2))) := by
  constructor
  · intro its p tr h
    unfold paginate_records at h
    have hframe := (paginate_loop_frame fetch ps fuel
      (payload.setdefault "limit" (JVal.num ps))
      (payload.setdefault "limit" (JVal.num ps)).get_offset its p tr h).1
    rw [hframe "limit" (by decide), Dict.get?_setdefault_self]
  · intro fuel2 q off page hf hne hnlt
    simp only [paginate_loop, hf]
    rw [hne]
    simp only [Bool.false_eq_true, if_false]
    rw [if_neg hnlt]
    cases paginate_loop fetch ps fuel2 (q.set "offset" (JVal.num off)) (off + ps) with
    | none => rfl
    | some r => obtain ⟨rest, pfin, tr⟩ := r; rfl

/-- C1 (amended) witness: a preset limit 3 survives (first part applied to
the counterexample run); a full page advances the offset by page_size
(second part applied to a 2-item page with page_size 2 at offset 0). -/
theorem paginate_limit_setdefault_offset_advance_witness :
    (Dict.get? ⟨[("limit", JVal.num 3), ("offset", JVal.num 4)]⟩ "limit"
        = some ((Dict.get? ⟨[("limit", JVal.num 3)]⟩ "limit").getD (JVal.num 2))) ∧
    paginate_loop (stable_server [0, 1, 2, 3]) 2 1 ⟨[("limit", JVal.num 2)]⟩ 0
        = (paginate_loop (stable_server [0, 1, 2, 3]) 2 0
            (Dict.set ⟨[("limit", JVal.num 2)]⟩ "offset" (JVal.num 0)) (0 + 2)).map
            (fun r => ([0, 1] ++ r.1, r.2.1,
              Dict.set ⟨[("limit", JVal.num 2)]⟩ "offset" (JVal.num 0) :: r.2.2)) :=
  ⟨(paginate_limit_setdefault_offset_advance (stable_server [0, 1, 2, 3])
      ⟨[("limit", JVal.num 3)]⟩ 2 5).1 [0, 1, 2, 2, 3]
      ⟨[("limit", JVal.num 3), ("offset", JVal.num 4)]⟩
      [⟨[("limit", JVal.num 3), ("offset", JVal.num 0)]⟩,
       ⟨[("limit", JVal.num 3), ("offset", JVal.num 2)]⟩,
       ⟨[("limit", JVal.num 3), ("offset", JVal.num 4)]⟩] rfl,
   (paginate_limit_setdefault_offset_advance (stable_server [0, 1, 2, 3])
      ⟨[("limit", JVal.num 2)]⟩ 2 5).2 0 ⟨[("limit", JVal.num 2)]⟩ 0 [0, 1]
      rfl rfl (by decide)⟩

/-- C9: both engines mutate the caller's payload only at the `limit` and
`offset` keys: every other key has its original value in the final payload
and in every payload passed to a fetch call throughout the pagination. -/
theorem paginate_mutates_only_pagination_keys {α : Type} (fetch : Dict → Option (List α))
    (payload : Dict) (ps : Int) (fuel : Nat) :
    (∀ its p tr, paginate_records fetch payload ps fuel = some (its, p, tr) →
      ∀ k, k ≠ "limit" → k ≠ "offset" →
        p.get? k = payload.get? k ∧ ∀ d ∈ tr, d.get? k = payload.get? k) ∧
    (∀ its p tr, paginate_entries fetch payload ps fuel = some (its, p, tr) →
      ∀ k, k ≠ "limit" → k ≠ "offset" →
        p.get? k = payload.get? k ∧ ∀ d ∈ tr, d.get? k = payload.get? k) := by
  have hrec : ∀ its p tr, paginate_records fetch payload ps fuel = some (its, p, tr) →
      ∀ k, k ≠ "limit" → k ≠ "offset" →
        p.get? k = payload.get? k ∧ ∀ d ∈ tr, d.get? k = payload.get? k := by
    intro its p tr h k hk1 hk2
    unfold paginate_records at h
    obtain ⟨h1, h2⟩ := paginate_loop_frame fetch ps fuel _ _ its p tr h
    refine ⟨?_, ?_⟩
    · rw [h1 k hk2, Dict.get?_setdefault_ne payload "limit" k (JVal.num ps) hk1]
    · intro d hd
      rw [h2 d hd k hk2, Dict.get?_setdefault_ne payload "limit" k (JVal.num ps) hk1]
  refine ⟨hrec, ?_⟩
  intro its p tr h
  rw [paginate_entries_eq] at h
  exact hrec its p tr h

/-- C9 witness: a filter key `q` survives a full pagination untouched, in
the final payload and in the payload of the single fetch call made. -/
theorem paginate_mutates_only_pagination_keys_witness :
    Dict.get? ⟨[("q", JVal.str "x"), ("limit", JVal.num 5), ("offset", JVal.num 0)]⟩ "q"
        = Dict.get? ⟨[("q", JVal.str "x")]⟩ "q" ∧
    ∀ d ∈ [(⟨[("q", JVal.str "x"), ("limit", JVal.num 5), ("offset", JVal.num 0)]⟩ : Dict)],
      Dict.get? d "q" = Dict.get? ⟨[("q", JVal.str "x")]⟩ "q" :=
  (paginate_mutates_only_pagination_keys (fun _ => (none : Option (List Nat)))
    ⟨[("q", JVal.str "x")]⟩ 5 1).1 []
    ⟨[("q", JVal.str "x"), ("limit", JVal.num 5), ("offset", JVal.num 0)]⟩
    [⟨[("q", JVal.str "x"), ("limit", JVal.num 5), ("offset", JVal.num 0)]⟩]
    rfl "q" (by decide) (by decide)

/-- C4: for a positive batch size the engine returns `Except.ok` of a list
that is exactly the input mapped position-by-position through the caught
create call, so its length equals the input length (including length 0). -/
theorem batch_length_invariant {α β : Type} (create : α → Except String β)
    (records : List α) (bs : Int) (hbs : 0 < bs) :
    batch_create_records create records bs
        = Except.ok (records.map (applyCreate create)) ∧
      (records.map (applyCreate create)).length = records.length :=
  ⟨batch_create_records_pos create records bs hbs, by simp⟩

/-- C4 witness: three payloads, batch size 2. -/
theorem batch_length_invariant_witness :
    batch_create_records (fun n : Nat => Except.ok (n + 1)) [4, 5, 6] 2
        = Except.ok (([4, 5, 6] : List Nat).map
            (applyCreate (fun n : Nat => Except.ok (n + 1)))) ∧
      (([4, 5, 6] : List Nat).map (applyCreate (fun n : Nat => Except.ok (n + 1)))).length
        = ([4, 5, 6] : List Nat).length :=
  batch_length_invariant (fun n : Nat => Except.ok (n + 1)) [4, 5, 6] 2 (by decide)

/-- C5: if the create call raises at position `k`, the engine does not
propagate: the result at `k` is the error entry carrying the stringified
message and the offending payload, and every position whose own create
call succeeds holds that success response (later payloads included). -/
theorem batch_error_isolation {α β : Type} (create : α → Except String β)
    (records : List α) (bs : Int) (hbs : 0 < bs) (k : Nat) (hk : k < records.length)
    (e : String) (he : create (records.get ⟨k, hk⟩) = Except.error e) :
    ∃ l, batch_create_records create records bs = Except.ok l ∧
      l.length = records.length ∧
      l.get? k = some (BatchResult.error e (records.get ⟨k, hk⟩)) ∧
      ∀ (j : Nat) (hj : j < records.length) (r : β),
        create (records.get ⟨j, hj⟩) = Except.ok r →
          l.get? j = some (BatchResult.success r) := by
  refine ⟨records.map (applyCreate create),
    batch_create_records_pos create records bs hbs, by simp, ?_, ?_⟩
  · rw [List.get?_map, List.get?_eq_get hk]
    rw [List.get_eq_getElem] at he
    simp [applyCreate, he]
  · intro j hj r hr
    rw [List.get?_map, List.get?_eq_get hj]
    rw [List.get_eq_getElem] at hr
    simp [applyCreate, hr]

/-- C5 witness: payload 5 of `[4, 5, 6]` fails with message `boom`; the
result still has 3 entries, an error entry at position 1 and success
entries elsewhere. -/
theorem batch_error_isolation_witness :
    ∃ l, batch_create_records
        (fun n : Nat => if n = 5 then Except.error "boom" else Except.ok (n * 10)) [4, 5, 6] 2
        = Except.ok l ∧
      l.length = ([4, 5, 6] : List Nat).length ∧
      l.get? 1 = some (BatchResult.error "boom" (([4, 5, 6] : List Nat).get ⟨1, by decide⟩)) ∧
      ∀ (j : Nat) (hj : j < ([4, 5, 6] : List Nat).length) (r : Nat),
        (fun n : Nat => if n = 5 then Except.error "boom" else Except.ok (n * 10))
            (([4, 5, 6] : List Nat).get ⟨j, hj⟩) = Except.ok r →
          l.get? j = some (BatchResult.success r) :=
  batch_error_isolation
    (fun n : Nat => if n = 5 then Except.error "boom" else Except.ok (n * 10))
    [4, 5, 6] 2 (by decide) 1 (by decide) "boom" rfl

/-- C8: for any two positive batch sizes the engine hands the create call
the same payload sequence in the same order and returns identical result
lists: batch size is pure chunking granularity. -/
theorem batch_size_only_chunking {α β : Type} (create : α → Except String β)
    (records : List α) (b1 b2 : Int) (h1 : 0 < b1) (h2 : 0 < b2) :
    batch_create_records create records b1 = batch_create_records create records b2 ∧
    batch_call_sequence records b1 = batch_call_sequence records b2 := by
  refine ⟨?_, ?_⟩
  · rw [batch_create_records_pos create records b1 h1,
      batch_create_records_pos create records b2 h2]
  · rw [batch_call_sequence_pos records b1 h1, batch_call_sequence_pos records b2 h2]

/-- C8 witness: batch sizes 1 and 2 agree on a 3-item input. -/
theorem batch_size_only_chunking_witness :
    batch_create_records (fun n : Nat => Except.ok (n * 10)) [4, 5, 6] 1
        = batch_create_records (fun n : Nat => Except.ok (n * 10)) [4, 5, 6] 2 ∧
    batch_call_sequence ([4, 5, 6] : List Nat) 1 = batch_call_sequence ([4, 5, 6] : List Nat) 2 :=
  batch_size_only_chunking (fun n : Nat => Except.ok (n * 10)) [4, 5, 6] 1 2
    (by decide) (by decide)

/-- C10: outside the positive-batch-size precondition the engine breaks
its guarantees: batch size 0 raises range's ValueError even for an empty
input, and any negative batch size yields an empty result list whatever
the input length. -/
theorem batch_size_nonpositive {α β : Type} (create : α → Except String β)
    (records : List α) :
    batch_create_records create records 0
        = Except.error "range() arg 3 must not be zero" ∧
    batch_create_records create ([] : List α) 0
        = Except.error "range() arg 3 must not be zero" ∧
    ∀ bs : Int, bs < 0 → batch_create_records create records bs = Except.ok [] := by
  refine ⟨rfl, rfl, ?_⟩
  intro bs hbs
  unfold batch_create_records pyRange pyRangeLen
  rw [if_neg (by omega : ¬bs = 0), if_neg (by omega : ¬(0 : Int) < bs),
    if_neg (by omega : ¬((records.length : Int) < 0))]
  rfl

/-- C10 witness: batch size 0 on an empty input raises; batch size -1 on a
3-item input returns an empty list. -/
theorem batch_size_nonpositive_witness :
    batch_create_records (fun n : Nat => Except.ok n) ([] : List Nat) 0
        = Except.error "range() arg 3 must not be zero" ∧
    batch_create_records (fun n : Nat => Except.ok n) [4, 5, 6] (-1) = Except.ok [] :=
  ⟨(batch_size_nonpositive (fun n : Nat => Except.ok n) ([] : List Nat)).1,
   (batch_size_nonpositive (fun n : Nat => Except.ok n) [4, 5, 6]).2.2 (-1) (by decide)⟩

/-- C6: the classifier is total (it always produces a raised error) and
its kind follows the fixed status table — 400 validation, 401
unauthorized, 403 forbidden, 404 not found, 409 conflict, 422
unprocessable, 429 rate limited, any status at least 500 server failure,
anything else generic failure — with a message containing the derived
body message, which is the body's structured `message` field when the
body parses as JSON containing one and the raw body text otherwise. -/
theorem handle_error_classification (status : Int) (body : Option Dict) (text : String) :
    ((status = 400 → handle_error status body text
        = PyError.valueError ("Bad Request (400): " ++ error_message body text)) ∧
     (status = 401 → handle_error status body text
        = PyError.permissionError
            ("Unauthorized (401): Invalid API key or permissions - " ++ error_message body text)) ∧
     (status = 403 → handle_error status body text
        = PyError.permissionError
            ("Forbidden (403): Access denied - " ++ error_message body text)) ∧
     (status = 404 → handle_error status body text
        = PyError.fileNotFoundError
            ("Not Found (404): Resource not found - " ++ error_message body text)) ∧
     (status = 409 → handle_error status body text
        = PyError.valueError ("Conflict (409): Resource conflict - " ++ error_message body text)) ∧
     (status = 422 → handle_error status body text
        = PyError.valueError
            ("Unprocessable Entity (422): Validation error - " ++ error_message body text)) ∧
     (status = 429 → handle_error status body text
        = PyError.runtimeError
            ("Rate Limited (429): Too many requests - " ++ error_message body text)) ∧
     (500 ≤ status → handle_error status body text
        = PyError.runtimeError
            ("Server Error (" ++ toString status ++ "): " ++ error_message body text)) ∧
     (status ∉ ([400, 401, 403, 404, 409, 422, 429] : List Int) → status < 500 →
        handle_error status body text
          = PyError.exception
              ("Request failed (" ++ toString status ++ "): " ++ error_message body text))) ∧
    (∀ d v, body = some d → d.get? "message" = some v → error_message body text = pyStr v) ∧
    (body = none → error_message body text = text) ∧
    (∀ d, body = some d → d.get? "message" = none → error_message body text = text) := by
  refine ⟨⟨?_, ?_, ?_, ?_, ?_, ?_, ?_, ?_, ?_⟩, ?_, ?_, ?_⟩
  · intro h; subst h; rfl
  · intro h; subst h; rfl
  · intro h; subst h; rfl
  · intro h; subst h; rfl
  · intro h; subst h; rfl
  · intro h; subst h; rfl
  · intro h; subst h; rfl
  · intro h
    unfold handle_error
    rw [if_neg (by omega), if_neg (by omega), if_neg (by omega), if_neg (by omega),
      if_neg (by omega), if_neg (by omega), if_neg (by omega), if_pos h]
  · intro hmem hlt
    simp only [List.mem_cons, List.not_mem_nil, or_false, not_or] at hmem
    obtain ⟨n400, n401, n403, n404, n409, n422, n429⟩ := hmem
    unfold handle_error
    rw [if_neg n400, if_neg n401, if_neg n403, if_neg n404, if_neg n409, if_neg n422,
      if_neg n429, if_neg (by omega)]
  · intro d v hb hm
    subst hb
    show (match d.get? "message" with | some v => pyStr v | none => text) = pyStr v
    rw [hm]
  · intro hb
    subst hb
    rfl
  · intro d hb hm
    subst hb
    show (match d.get? "message" with | some v => pyStr v | none => text) = text
    rw [hm]

/-- C6 witness: status 404 with a JSON body carrying a `message` field. -/
theorem handle_error_classification_witness :
    handle_error 404 (some ⟨[("message", JVal.str "gone")]⟩) "raw"
        = PyError.fileNotFoundError "Not Found (404): Resource not found - gone" ∧
    error_message (some ⟨[("message", JVal.str "gone")]⟩) "raw" = pyStr (JVal.str "gone") :=
  ⟨(handle_error_classification 404 (some ⟨[("message", JVal.str "gone")]⟩) "raw").1.2.2.2.1 rfl,
   (handle_error_classification 404 (some ⟨[("message", JVal.str "gone")]⟩) "raw").2.1
     ⟨[("message", JVal.str "gone")]⟩ (JVal.str "gone") rfl rfl⟩
